import Mathlib

/-!
Verification development for the `PricingComponent` class of the
Online_Store repository (the data-driven pricing-card renderer).

The JavaScript class is shallowly embedded: the component's observable
state (the stored plan records, the rendered cards of the container, the
registered selection callback) is a Lean structure, each method is a Lean
function on that structure, and the `console.warn` / `console.error`
diagnostics the methods emit are returned explicitly.  JS numbers are
modelled exactly as decimal fixed-point values (a mantissa over a power of
ten; non-finite doubles and binary rounding are not modelled), JS strings
as Lean strings, absent / `undefined` object properties as `Option.none`.
-/

/-- A JS number modelled as the exact decimal `mant / 10 ^ exp10`.  Every
numeric literal the component's data can carry is of this shape. -/
structure JSNum where
  mant : Int
  exp10 : Nat
  deriving DecidableEq, Inhabited

/-- The number is integral, i.e. JS `x % 1 === 0`. -/
def JSNum.isWhole (x : JSNum) : Bool := x.mant % ((10 : Int) ^ x.exp10) = 0

/-- A JS value that may appear in a record's `price` property: a number or
a string (the only shapes the component's demo data and spec use). -/
inductive PriceVal where
  | num (x : JSNum)
  | str (s : String)
  deriving DecidableEq, Inhabited

/-- The decimal digit character for `n` (meaningful for `n < 10`). -/
def digitChar (n : Nat) : Char := Char.ofNat (48 + n)

/-- Little-endian decimal digits of `n`; `fuel ≥ n + 1` suffices.  This is
the model of the decimal printing JS `Number.prototype.toString` performs
on integral values. -/
def natToDigitsRev (fuel n : Nat) : List Char :=
  match fuel with
  | 0 => []
  | fuel + 1 =>
    if n < 10 then [digitChar n]
    else digitChar (n % 10) :: natToDigitsRev fuel (n / 10)

/-- Decimal representation of a natural number. -/
def natRepr (n : Nat) : String := String.mk ((natToDigitsRev (n + 1) n).reverse)

/-- Decimal representation of an integer, as JS prints an integral number. -/
def intRepr (i : Int) : String := (if i < 0 then "-" else "") ++ natRepr i.natAbs

/-- JS `x.toString()` for an integral number: the integer `mant / 10^exp10`
printed in decimal. -/
def JSNum.wholeRepr (x : JSNum) : String := intRepr (x.mant / ((10 : Int) ^ x.exp10))

/-- Model of JS `x.toFixed(2)`: the magnitude is rounded to a whole number
of hundredths (half away from zero) and printed as integer part, a dot and
exactly two digits, with a minus sign for negative inputs. -/
def toFixed2 (x : JSNum) : String :=
  let d := 10 ^ x.exp10
  let m := (200 * x.mant.natAbs + d) / (2 * d)
  (if x.mant < 0 then "-" else "") ++ natRepr (m / 100) ++ "." ++
    String.mk [digitChar (m % 100 / 10), digitChar (m % 10)]

/-- The whitespace characters `parseFloat` skips before the number. -/
def isWS (c : Char) : Bool := c = ' ' || c = '\t' || c = '\n' || c = '\r'

/-- Value of a list of decimal digit characters. -/
def digitsToNat (ds : List Char) : Nat :=
  ds.foldl (fun a c => 10 * a + (c.toNat - 48)) 0

/-- Consume an optional leading sign, returning the sign and the rest. -/
def parseSign : List Char → Int × List Char
  | '-' :: rest => (-1, rest)
  | '+' :: rest => (1, rest)
  | cs => (1, cs)

/-- Model of JS `parseFloat` on a character list: skip leading whitespace,
read an optional sign, integer digits, an optional fraction and an optional
exponent, taking the longest valid prefix; `none` models `NaN` (no digits
at all).  `Infinity` literals and the precision limits of binary doubles
are not modelled. -/
def parseFloatChars (cs0 : List Char) : Option JSNum :=
  let cs1 := cs0.dropWhile isWS
  let sc := parseSign cs1
  let ds1 := sc.2.takeWhile Char.isDigit
  let cs2 := sc.2.dropWhile Char.isDigit
  let fr : List Char × List Char :=
    match cs2 with
    | '.' :: rest => (rest.takeWhile Char.isDigit, rest.dropWhile Char.isDigit)
    | _ => ([], cs2)
  if ds1.isEmpty && fr.1.isEmpty then none
  else
    let expo : Int :=
      match fr.2 with
      | c :: rest =>
        if c = 'e' || c = 'E' then
          let es := parseSign rest
          let eds := es.2.takeWhile Char.isDigit
          if eds.isEmpty then 0 else es.1 * (digitsToNat eds : Int)
        else 0
      | [] => 0
    let mant0 : Int := sc.1 * ((digitsToNat ds1 * 10 ^ fr.1.length + digitsToNat fr.1 : Nat) : Int)
    some (if 0 ≤ expo then
            { mant := mant0 * ((10 : Int) ^ expo.toNat), exp10 := fr.1.length }
          else
            { mant := mant0, exp10 := fr.1.length + (-expo).toNat })

/-- `parseFloat` on a price value: a number parses to itself (`parseFloat`
stringifies and re-parses a finite number, the identity on its value), a
string is parsed character by character. -/
def parseFloat : PriceVal → Option JSNum
  | .num x => some x
  | .str s => parseFloatChars s.data

/-- Model of JS `price.toString()`.  For a string it is the identity; the
number branch is only ever consulted by `formatPrice` after `parseFloat`
failed, which cannot happen for a number in this model, so its exact shape
is irrelevant (we print mantissa and decimal exponent). -/
def jsToString : PriceVal → String
  | .str s => s
  | .num x => intRepr x.mant ++ (if x.exp10 = 0 then "" else "e-" ++ natRepr x.exp10)

/-- `PricingComponent.formatPrice`:
`parseFloat` the input; on `NaN` return `price.toString()`; otherwise print
with no fractional part when the value is integral (`numPrice % 1 === 0`)
and with `toFixed(2)` otherwise. -/
def formatPrice (price : PriceVal) : String :=
  match parseFloat price with
  | none => jsToString price
  | some numPrice => if numPrice.isWhole then numPrice.wholeRepr else toFixed2 numPrice

example : formatPrice (.num ⟨9, 0⟩) = "9" := by decide
example : formatPrice (.num ⟨95, 1⟩) = "9.50" := by decide
example : formatPrice (.num ⟨999, 2⟩) = "9.99" := by decide
example : formatPrice (.str "abc") = "abc" := by decide
example : formatPrice (.str "9.5") = "9.50" := by decide
example : formatPrice (.num ⟨-95, 1⟩) = "-9.50" := by decide
example : formatPrice (.num ⟨-9, 0⟩) = "-9" := by decide
example : formatPrice (.num ⟨900, 2⟩) = "9" := by decide
example : parseFloat (.str "  +12.25e1xyz") = some ⟨12250, 2⟩ := by decide
example : parseFloat (.str " .5") = some ⟨5, 1⟩ := by decide
example : parseFloat (.str "e5") = none := by decide
example : formatPrice (.str "19.99") = "19.99" := by decide
example : formatPrice (.str "1e-3") = "0.00" := by decide

/-! ## Plan records and the rendered card model -/

/-- A caller-supplied plan record.  A field of value `none` models a
property the JS object does not carry (or carries as `undefined`); the
component's `validatePlanData` checks presence with `hasOwnProperty`, and
its truthiness tests treat the empty string like absence. -/
structure Plan where
  id : Option String := none
  title : Option String := none
  price : Option PriceVal := none
  period : Option String := none
  badge : Option String := none
  features : Option (List String) := none
  buttonText : Option String := none
  highlighted : Bool := false
  deriving DecidableEq, Inhabited

/-- Model of JS `String.prototype.trim`: drop whitespace from both ends
(defined on the character list so that it evaluates structurally). -/
def jsTrim (s : String) : String :=
  String.mk (((s.data.dropWhile Char.isWhitespace).reverse.dropWhile Char.isWhitespace).reverse)

/-- JS `a || b` for an optional string `a` and a string default `b`:
`a` when present and non-empty (truthy), otherwise `b`. -/
def jsOrStr (a : Option String) (b : String) : String :=
  match a with
  | some s => if s = "" then b else s
  | none => b

/-- JS `a || b` for two optional strings: the raw value of `b` (possibly
absent or empty) whenever `a` is absent or empty. -/
def jsOrOpt (a b : Option String) : Option String :=
  match a with
  | some s => if s = "" then b else some s
  | none => b

/-- Truthiness of an optional JS string: present and non-empty. -/
def truthyStr (a : Option String) : Bool :=
  match a with
  | some s => s ≠ ""
  | none => false

/-- `PricingComponent.validatePlanData`: the record owns all of the
required properties `title`, `price`, `features` and `buttonText`. -/
def validatePlanData (planData : Plan) : Bool :=
  planData.title.isSome && planData.price.isSome &&
    planData.features.isSome && planData.buttonText.isSome

/-- One rendered pricing card, as the cloned template ends up after
`renderCard` / `populateCardContent`: its `data-plan` and `data-index`
attributes, the `highlighted` class, and the populated text content.
`badgeVisible` models `style.display = 'inline-block'` versus `'none'`;
`badgeText` stays at the template's empty default when the badge is
hidden. -/
structure Card where
  dataPlan : String
  dataIndex : Nat
  highlighted : Bool
  title : String
  badgeVisible : Bool
  badgeText : String
  priceText : String
  periodText : String
  features : List String
  buttonText : String
  deriving DecidableEq, Inhabited

/-- The card `renderCard` builds for a record at a given index: attributes
from `renderCard`, content from `populateCardContent` and
`populateFeatures`.  `populateCardContent` is only ever reached for
records passing `validatePlanData`, so the `getD` fallbacks for the four
required fields are never exercised by `renderCard1`. -/
def buildCard (planData : Plan) (index : Nat) : Card :=
  { dataPlan := jsOrStr planData.id ("plan-" ++ natRepr index)
    dataIndex := index
    highlighted := planData.highlighted
    title := planData.title.getD ""
    badgeVisible := truthyStr planData.badge && jsTrim (planData.badge.getD "") ≠ ""
    badgeText :=
      if truthyStr planData.badge && jsTrim (planData.badge.getD "") ≠ "" then
        planData.badge.getD ""
      else ""
    priceText := formatPrice (planData.price.getD (.str ""))
    periodText := jsOrStr planData.period "/month"
    features := planData.features.getD []
    buttonText := planData.buttonText.getD "" }

/-- `PricingComponent.renderCard`, data part: `none` when
`validatePlanData` rejects the record (an `Invalid plan data` diagnostic
is emitted and nothing is appended), otherwise the populated card. -/
def renderCard1 (planData : Plan) (index : Nat) : Option Card :=
  if validatePlanData planData then some (buildCard planData index) else none

/-! ## Component state and operations -/

/-- The diagnostics the component writes to the console (informational
`console.log` lines are not modelled). -/
inductive Diag where
  | warnNoPlans
  | errorInvalidPlan (planData : Plan)
  | warnPlanNotFound (planId : String)
  | warnCallbackNotFunction
  deriving DecidableEq

/-- The observable state of a `PricingComponent` instance: the stored
`this.plans`, the cards currently in the container (in DOM order) and the
`this.eventCallbacks.onPlanSelect` slot.  A registered callback is
identified by an opaque tag. -/
structure CompState where
  plans : List Plan
  container : List Card
  cbSlot : Option Nat
  deriving DecidableEq

/-- The argument to `renderPlans`: an array of records or any non-array
value. -/
inductive PlansInput where
  | arr (ps : List Plan)
  | nonArray

/-- `PricingComponent.renderCard` acting on the component state: validate,
then append the built card to the container. -/
def renderCard (s : CompState) (planData : Plan) (index : Nat) : CompState × List Diag :=
  match renderCard1 planData index with
  | none => (s, [.errorInvalidPlan planData])
  | some c => ({ s with container := s.container ++ [c] }, [])

/-- The `plansData.forEach((planData, index) => this.renderCard ...)` loop
of `renderPlans`, rendering from position `index` on. -/
def renderLoop (s : CompState) (ps : List Plan) (index : Nat) : CompState × List Diag :=
  match ps with
  | [] => (s, [])
  | p :: rest =>
    let r1 := renderCard s p index
    let r2 := renderLoop r1.1 rest (index + 1)
    (r2.1, r1.2 ++ r2.2)

/-- `PricingComponent.renderPlans`: a non-array or empty input is refused
with a warning before anything is touched; otherwise the container is
cleared, the supplied array is stored wholesale in `this.plans`, and each
record is rendered in order. -/
def renderPlans (s : CompState) (plansData : PlansInput) : CompState × List Diag :=
  match plansData with
  | .nonArray => (s, [.warnNoPlans])
  | .arr [] => (s, [.warnNoPlans])
  | .arr ps => renderLoop { s with container := [], plans := ps } ps 0

/-- `this.plans.findIndex(plan => plan.id === planId)`, with the running
index made explicit. -/
def findIndexAux (planId : String) : List Plan → Nat → Option Nat
  | [], _ => none
  | p :: rest, i => if p.id = some planId then some i else findIndexAux planId rest (i + 1)

/-- Position of the first stored record whose `id` strictly equals
`planId` (a record without an `id` never matches). -/
def findIndexById (ps : List Plan) (planId : String) : Option Nat :=
  findIndexAux planId ps 0

/-- `PricingComponent.getPlans`: the stored sequence (the JS method hands
out a fresh array `[...this.plans]` holding the same record objects; the
sharing of the record objects is modelled separately below). -/
def getPlans (s : CompState) : List Plan := s.plans

/-- The partial record handed to `updatePlan`: a field of value `none` is
a property the update object does not carry (carrying a property with
value `undefined` is not modelled). -/
structure PlanPatch where
  id : Option String := none
  title : Option String := none
  price : Option PriceVal := none
  period : Option String := none
  badge : Option String := none
  features : Option (List String) := none
  buttonText : Option String := none
  highlighted : Option Bool := none
  deriving DecidableEq, Inhabited

/-- The spread `{ ...plan, ...updatedData }`: every property the patch
carries overrides the record's, every other property is kept. -/
def mergePlan (plan : Plan) (updatedData : PlanPatch) : Plan :=
  { id := updatedData.id <|> plan.id
    title := updatedData.title <|> plan.title
    price := updatedData.price <|> plan.price
    period := updatedData.period <|> plan.period
    badge := updatedData.badge <|> plan.badge
    features := updatedData.features <|> plan.features
    buttonText := updatedData.buttonText <|> plan.buttonText
    highlighted := updatedData.highlighted.getD plan.highlighted }

/-- `container.querySelector('[data-plan="planId"]')` followed by
`.remove()`: detach the first card carrying the attribute, if any. -/
def removeFirstCard (cards : List Card) (planId : String) : List Card :=
  match cards with
  | [] => []
  | c :: rest => if c.dataPlan = planId then rest else c :: removeFirstCard rest planId

/-- `PricingComponent.updatePlan`: look the id up; warn and return when it
is not found; otherwise shallow-merge the patch onto the record at that
index, detach the first card carrying the id, and re-render the merged
record (the re-rendered card is appended at the end of the container, and
is dropped again with a diagnostic if the merged record is invalid). -/
def updatePlan (s : CompState) (planId : String) (updatedData : PlanPatch) : CompState × List Diag :=
  match findIndexById s.plans planId with
  | none => (s, [.warnPlanNotFound planId])
  | some planIndex =>
    let merged := mergePlan ((s.plans[planIndex]?).getD default) updatedData
    let s1 : CompState :=
      { s with
        plans := s.plans.set planIndex merged
        container := removeFirstCard s.container planId }
    renderCard s1 merged planIndex

/-- `PricingComponent.removePlan`: look the id up; warn and return when it
is not found; otherwise splice that one record out of `this.plans` and
detach the first card carrying the id from the container. -/
def removePlan (s : CompState) (planId : String) : CompState × List Diag :=
  match findIndexById s.plans planId with
  | none => (s, [.warnPlanNotFound planId])
  | some planIndex =>
    ({ s with
       plans := s.plans.eraseIdx planIndex
       container := removeFirstCard s.container planId }, [])

/-- The value handed to `onPlanSelect`: a function (identified by an
opaque tag) or any non-callable value. -/
inductive CallbackArg where
  | fn (tag : Nat)
  | nonFn

/-- `PricingComponent.onPlanSelect`: a function replaces whatever was in
`this.eventCallbacks.onPlanSelect`; anything else is rejected with a
warning and the slot is left untouched. -/
def onPlanSelect (s : CompState) (callback : CallbackArg) : CompState × List Diag :=
  match callback with
  | .fn tag => ({ s with cbSlot := some tag }, [])
  | .nonFn => (s, [.warnCallbackNotFunction])

/-- The outward notifications one trigger of a card's primary action
produces, in order. -/
inductive Notif where
  | callbackInvoked (tag : Nat) (id : Option String) (record : Plan)
  | broadcast (planId : Option String) (record : Plan) (card : Card)
  deriving DecidableEq

/-- `PricingComponent.handleCardClick`: after the visual click animation
(a pure style effect, not part of the data model) the registered callback,
if any, is invoked with `planData.id || planData.title` and the record,
and then a `planSelected` custom event carrying `planData.id`, the record
and the card element is dispatched on the document. -/
def handleCardClick (s : CompState) (planData : Plan) (cardElement : Card) : List Notif :=
  (match s.cbSlot with
   | some tag => [.callbackInvoked tag (jsOrOpt planData.id planData.title) planData]
   | none => []) ++
  [.broadcast planData.id planData cardElement]

/-- The `(id, record)` arguments of the callback invocations among the
notifications. -/
def cbPairs (ns : List Notif) : List (Option String × Plan) :=
  ns.filterMap fun n =>
    match n with
    | .callbackInvoked _ i r => some (i, r)
    | _ => none

/-- The tags of the callbacks that fired. -/
def cbTags (ns : List Notif) : List Nat :=
  ns.filterMap fun n =>
    match n with
    | .callbackInvoked tag _ _ => some tag
    | _ => none

/-- The `{planId, planData, cardElement}` payloads of the broadcast
`planSelected` events among the notifications. -/
def bcastPayloads (ns : List Notif) : List (Option String × Plan × Card) :=
  ns.filterMap fun n =>
    match n with
    | .broadcast i r c => some (i, r, c)
    | _ => none

/-! ## Reference semantics of `getPlans`

`getPlans` returns `[...this.plans]`: a fresh array holding the same
record objects.  To talk about what a caller can reach through that value
the object graph is made explicit: a heap of plan objects and a heap of
arrays of references. -/

/-- The object graph: plan objects and array objects (arrays hold
references to plan objects); references are indices. -/
structure ObjHeap where
  objs : List Plan
  arrs : List (List Nat)
  deriving DecidableEq

/-- The component state with references made explicit: `plansArr` is the
reference to the array `this.plans` holds. -/
structure RefState where
  heap : ObjHeap
  plansArr : Nat
  deriving DecidableEq

/-- The contents of an array object. -/
def arrContents (h : ObjHeap) (a : Nat) : List Nat := (h.arrs[a]?).getD []

/-- The plan values the component's stored sequence currently denotes. -/
def storedPlans (s : RefState) : List Plan :=
  (arrContents s.heap s.plansArr).map fun r => (s.heap.objs[r]?).getD default

/-- `PricingComponent.getPlans` under reference semantics: allocate a
fresh array with the same element references and return a reference to
it. -/
def getPlansRef (s : RefState) : RefState × Nat :=
  ({ s with heap := { s.heap with arrs := s.heap.arrs ++ [arrContents s.heap s.plansArr] } },
   s.heap.arrs.length)

/-- A caller mutating a plan object in place (e.g. assigning to a field of
a record it reached through a snapshot). -/
def setObj (s : RefState) (r : Nat) (p : Plan) : RefState :=
  { s with heap := { s.heap with objs := s.heap.objs.set r p } }

/-- A caller mutating an array object in place (push, pop, splice,
reordering: any reassignment of its contents). -/
def setArr (s : RefState) (a : Nat) (v : List Nat) : RefState :=
  { s with heap := { s.heap with arrs := s.heap.arrs.set a v } }

/-! ## Claim-side vocabulary -/

/-- The string carries no decimal point (no fractional part is shown). -/
def noDecimalPoint (s : String) : Bool := s.data.all fun c => c ≠ '.'

/-- The string ends in a decimal point followed by exactly two digits (and
that point is its only one). -/
def endsInTwoDecimalDigits (s : String) : Bool :=
  match s.data.reverse with
  | b :: a :: d :: t => a.isDigit && b.isDigit && d = '.' && t.all fun c => c ≠ '.'
  | _ => false

/-- The records paired with their positions, counting from `i`. -/
def withIndexFrom (i : Nat) : List Plan → List (Nat × Plan)
  | [] => []
  | p :: rest => (i, p) :: withIndexFrom (i + 1) rest

/-- The sequence with the first record of the given id removed (and left
as is when no record matches). -/
def removeFirstById : List Plan → String → List Plan
  | [], _ => []
  | p :: rest, planId =>
    if p.id = some planId then rest else p :: removeFirstById rest planId

/-- How many stored records carry the given id. -/
def countById : List Plan → String → Nat
  | [], _ => 0
  | p :: rest, planId =>
    (if p.id = some planId then 1 else 0) + countById rest planId

/-- How many rendered cards carry the given id as `data-plan`. -/
def countCards : List Card → String → Nat
  | [], _ => 0
  | c :: rest, planId =>
    (if c.dataPlan = planId then 1 else 0) + countCards rest planId

/-! ## Sample data for witnesses and counterexamples -/

/-- A valid record with an id. -/
def basicPlan : Plan :=
  { id := some "basic", title := some "Basic Plan", price := some (.num ⟨999, 2⟩),
    features := some ["1 GB Storage"], buttonText := some "Get Started" }

/-- A valid highlighted record with a badge. -/
def proPlan : Plan :=
  { id := some "pro", title := some "Pro Plan", price := some (.num ⟨1999, 2⟩),
    badge := some "Most Popular", features := some ["10 GB Storage"],
    buttonText := some "Go Pro", highlighted := true }

/-- A valid record whose price is a numeric string. -/
def entPlan : Plan :=
  { id := some "ent", title := some "Enterprise", price := some (.str "49.99"),
    features := some [], buttonText := some "Contact Sales" }

/-- An invalid record: it lacks the required `title`. -/
def noTitlePlan : Plan :=
  { id := some "bad", price := some (.num ⟨5, 0⟩), features := some [],
    buttonText := some "X" }

/-- A valid record without an `id`. -/
def noIdPlan : Plan :=
  { title := some "Basic Plan", price := some (.num ⟨9, 0⟩), features := some [],
    buttonText := some "Go" }

/-- A second valid record with the same id as `proPlan`. -/
def proPlanDup : Plan :=
  { id := some "pro", title := some "Pro Again", price := some (.num ⟨29, 0⟩),
    features := some [], buttonText := some "Again" }

example : validatePlanData basicPlan = true := by decide
example : validatePlanData noTitlePlan = false := by decide
example : (buildCard proPlan 1).badgeVisible = true := by decide
example : (buildCard proPlan 1).badgeText = "Most Popular" := by decide
example : (buildCard basicPlan 0).badgeVisible = false := by decide
example : (buildCard basicPlan 0).priceText = "9.99" := by decide
example : (buildCard entPlan 2).priceText = "49.99" := by decide
example : (buildCard noIdPlan 0).dataPlan = "plan-0" := by decide
example :
    (renderPlans ⟨[], [], none⟩ (.arr [basicPlan, noTitlePlan, entPlan])).1.container
      = [buildCard basicPlan 0, buildCard entPlan 2] := by decide
example :
    (renderPlans ⟨[], [], none⟩ (.arr [basicPlan, noTitlePlan])).2
      = [.errorInvalidPlan noTitlePlan] := by decide
example :
    handleCardClick ⟨[], [], some 7⟩ noIdPlan (buildCard noIdPlan 0)
      = [.callbackInvoked 7 (some "Basic Plan") noIdPlan,
         .broadcast none noIdPlan (buildCard noIdPlan 0)] := by decide

/-! ## Helper lemmas: decimal printing -/

theorem digitChar_isDigit (k : Nat) (hk : k < 10) : (digitChar k).isDigit = true := by
  interval_cases k <;> decide

theorem digitChar_ne_dot (k : Nat) (hk : k < 10) : digitChar k ≠ '.' := by
  interval_cases k <;> decide

theorem natToDigitsRev_mem (fuel : Nat) :
    ∀ n, ∀ c ∈ natToDigitsRev fuel n, ∃ k, k < 10 ∧ c = digitChar k := by
  induction fuel with
  | zero => intro n c hc; simp [natToDigitsRev] at hc
  | succ fuel ih =>
    intro n c hc
    unfold natToDigitsRev at hc
    by_cases h : n < 10
    · rw [if_pos h] at hc
      simp at hc
      exact ⟨n, h, hc⟩
    · rw [if_neg h] at hc
      rcases List.mem_cons.mp hc with hc | hc
      · exact ⟨n % 10, Nat.mod_lt _ (by norm_num), hc⟩
      · exact ih _ c hc

theorem natRepr_mem (n : Nat) : ∀ c ∈ (natRepr n).data, ∃ k, k < 10 ∧ c = digitChar k := by
  intro c hc
  unfold natRepr at hc
  rw [List.mem_reverse] at hc
  exact natToDigitsRev_mem _ _ c hc

theorem intRepr_no_dot (i : Int) : noDecimalPoint (intRepr i) = true := by
  unfold noDecimalPoint intRepr
  rw [String.data_append, List.all_append, Bool.and_eq_true]
  constructor
  · by_cases h : i < 0 <;> simp [h]
  · rw [List.all_eq_true]
    intro c hc
    obtain ⟨k, hk, rfl⟩ := natRepr_mem _ c hc
    simpa using digitChar_ne_dot k hk

theorem endsTwo_build (pre : List Char) (c1 c2 : Char)
    (h1 : c1.isDigit = true) (h2 : c2.isDigit = true) (hp : ∀ c ∈ pre, c ≠ '.') :
    endsInTwoDecimalDigits ⟨pre ++ '.' :: [c1, c2]⟩ = true := by
  unfold endsInTwoDecimalDigits
  have hrev : (pre ++ '.' :: [c1, c2]).reverse = c2 :: c1 :: '.' :: pre.reverse := by
    simp
  simp only [hrev, h1, h2, Bool.true_and, decide_True, List.all_eq_true]
  intro c hc
  rw [List.mem_reverse] at hc
  simpa using hp c hc

theorem toFixed2_eq_mk (x : JSNum) :
    toFixed2 x = ⟨((if x.mant < 0 then "-" else "").data ++
      (natRepr ((200 * x.mant.natAbs + 10 ^ x.exp10) / (2 * 10 ^ x.exp10) / 100)).data) ++
      '.' :: [digitChar ((200 * x.mant.natAbs + 10 ^ x.exp10) / (2 * 10 ^ x.exp10) % 100 / 10),
        digitChar ((200 * x.mant.natAbs + 10 ^ x.exp10) / (2 * 10 ^ x.exp10) % 10)]⟩ := by
  apply String.ext
  simp [toFixed2, String.data_append]

theorem toFixed2_two_decimals (x : JSNum) : endsInTwoDecimalDigits (toFixed2 x) = true := by
  rw [toFixed2_eq_mk]
  apply endsTwo_build
  · apply digitChar_isDigit
    have h100 : (200 * x.mant.natAbs + 10 ^ x.exp10) / (2 * 10 ^ x.exp10) % 100 < 100 :=
      Nat.mod_lt _ (by norm_num)
    omega
  · exact digitChar_isDigit _ (Nat.mod_lt _ (by norm_num))
  · intro c hc
    rcases List.mem_append.mp hc with hc | hc
    · by_cases h : x.mant < 0
      · rw [if_pos h] at hc
        simp at hc
        simp [hc]
      · rw [if_neg h] at hc
        simp at hc
    · obtain ⟨k, hk, rfl⟩ := natRepr_mem _ c hc
      exact digitChar_ne_dot k hk

/-! ## C2: the price formatting rule -/

/-- C2.  For every price input, `formatPrice` parses it with `parseFloat`;
when parsing fails the raw input is returned unchanged; otherwise the
result shows no decimal point when the parsed value is a whole number and
ends in exactly two decimal digits otherwise; in particular `9 ↦ "9"`,
`9.5 ↦ "9.50"`, `9.99 ↦ "9.99"` and `"abc" ↦ "abc"`. -/
theorem formatPrice_spec (p : PriceVal) :
    (∀ s, p = .str s → parseFloatChars s.data = none → formatPrice p = s)
    ∧ (∀ x : JSNum, parseFloat p = some x →
        (x.isWhole = true → noDecimalPoint (formatPrice p) = true)
        ∧ (x.isWhole = false → endsInTwoDecimalDigits (formatPrice p) = true))
    ∧ formatPrice (.num ⟨9, 0⟩) = "9"
    ∧ formatPrice (.num ⟨95, 1⟩) = "9.50"
    ∧ formatPrice (.num ⟨999, 2⟩) = "9.99"
    ∧ formatPrice (.str "abc") = "abc" := by
  refine ⟨?_, ?_, by decide, by decide, by decide, by decide⟩
  · rintro s rfl hnone
    simp [formatPrice, parseFloat, hnone, jsToString]
  · intro x hx
    constructor
    · intro hwhole
      have hfp : formatPrice p = x.wholeRepr := by
        simp [formatPrice, hx, hwhole]
      rw [hfp]
      exact intRepr_no_dot _
    · intro hnotwhole
      have hfp : formatPrice p = toFixed2 x := by
        simp [formatPrice, hx, hnotwhole]
      rw [hfp]
      exact toFixed2_two_decimals x

/-- Witness for C2: the formatter evaluated on the failing-parse example,
through the theorem. -/
theorem formatPrice_spec_witness :
    parseFloatChars "abc".data = none ∧ formatPrice (.str "abc") = "abc" :=
  ⟨by decide, (formatPrice_spec (.str "abc")).1 "abc" rfl (by decide)⟩

/-! ## C8: badge visibility -/

/-- C8.  On every rendered card the badge element is visible iff the
record's `badge` is present and non-blank after trimming; when visible it
shows exactly the badge value, and when hidden its text is never
populated (the element is hidden outright, not rendered empty). -/
theorem badge_visibility (p : Plan) (i : Nat) (c : Card)
    (h : renderCard1 p i = some c) :
    (c.badgeVisible = true ↔ ∃ s, p.badge = some s ∧ jsTrim s ≠ "")
    ∧ (c.badgeVisible = true → some c.badgeText = p.badge)
    ∧ (c.badgeVisible = false → c.badgeText = "") := by
  unfold renderCard1 at h
  by_cases hv : validatePlanData p
  · rw [if_pos hv] at h
    obtain rfl : buildCard p i = c := by injection h
    match hb : p.badge with
    | none =>
      refine ⟨?_, ?_, ?_⟩ <;> simp [buildCard, truthyStr, hb]
    | some s =>
      by_cases hs : s = ""
      · subst hs
        refine ⟨?_, ?_, ?_⟩ <;> simp [buildCard, truthyStr, hb, jsTrim]
      · by_cases ht : jsTrim s = ""
        · refine ⟨?_, ?_, ?_⟩ <;> simp [buildCard, truthyStr, hb, hs, ht]
        · refine ⟨?_, ?_, ?_⟩ <;> simp [buildCard, truthyStr, hb, hs, ht]
  · rw [if_neg hv] at h
    exact absurd h (by simp)

/-- Witness for C8: the highlighted sample record carries the badge
`"Most Popular"`, and its rendered card shows it. -/
theorem badge_visibility_witness :
    renderCard1 proPlan 1 = some (buildCard proPlan 1)
    ∧ (((buildCard proPlan 1).badgeVisible = true ↔
          ∃ s, proPlan.badge = some s ∧ jsTrim s ≠ "")
        ∧ ((buildCard proPlan 1).badgeVisible = true →
            some (buildCard proPlan 1).badgeText = proPlan.badge)
        ∧ ((buildCard proPlan 1).badgeVisible = false →
            (buildCard proPlan 1).badgeText = "")) :=
  ⟨by decide, badge_visibility proPlan 1 (buildCard proPlan 1) (by decide)⟩

/-! ## C1: callback and broadcast payloads on trigger -/

theorem jsOrOpt_eq_ite (a b : Option String) :
    jsOrOpt a b = if truthyStr a then a else b := by
  match a with
  | none => simp [jsOrOpt, truthyStr]
  | some s =>
    by_cases hs : s = "" <;> simp [jsOrOpt, truthyStr, hs]

/-- C1 (amended).  Every trigger invokes the registered selection callback
exactly once (and none when none is registered) and dispatches exactly one
broadcast; both carry the same record.  The id the callback receives
equals the broadcast's `planId` whenever the record's `id` is present and
non-empty; otherwise the callback receives the record's raw `title` while
the broadcast carries the raw `id`. -/
theorem handleCardClick_payloads (s : CompState) (p : Plan) (c : Card) :
    cbPairs (handleCardClick s p c)
      = (if (s.cbSlot).isSome then
           [((if truthyStr p.id then p.id else p.title), p)]
         else [])
    ∧ bcastPayloads (handleCardClick s p c) = [(p.id, p, c)] := by
  match hcb : s.cbSlot with
  | none => simp [handleCardClick, hcb, cbPairs, bcastPayloads]
  | some tag =>
    simp [handleCardClick, hcb, cbPairs, bcastPayloads, jsOrOpt_eq_ite]

/-- Counterexample for C1 as frozen: for a record without an `id` the
callback receives the title `"Basic Plan"` while the broadcast carries
`planId = undefined`, so the pairs differ. -/
theorem handleCardClick_id_mismatch :
    cbPairs (handleCardClick ⟨[noIdPlan], [buildCard noIdPlan 0], some 0⟩ noIdPlan
        (buildCard noIdPlan 0))
      = [(some "Basic Plan", noIdPlan)]
    ∧ bcastPayloads (handleCardClick ⟨[noIdPlan], [buildCard noIdPlan 0], some 0⟩ noIdPlan
        (buildCard noIdPlan 0))
      = [(none, noIdPlan, buildCard noIdPlan 0)]
    ∧ (some "Basic Plan" : Option String) ≠ none := by
  refine ⟨by decide, by decide, by decide⟩

/-! ## C9: callback registration -/

/-- C9.  Registering a function replaces the previous registration, so
only the newest callback fires on a trigger; registering a non-callable
value is rejected with a warning, leaves the slot untouched, and whatever
was registered before keeps firing. -/
theorem onPlanSelect_replace (s : CompState) (f g : Nat) (p : Plan) (c : Card) :
    ((onPlanSelect (onPlanSelect s (.fn f)).1 (.fn g)).1.cbSlot = some g)
    ∧ cbTags (handleCardClick (onPlanSelect (onPlanSelect s (.fn f)).1 (.fn g)).1 p c) = [g]
    ∧ onPlanSelect s .nonFn = (s, [.warnCallbackNotFunction])
    ∧ cbTags (handleCardClick (onPlanSelect s .nonFn).1 p c)
        = cbTags (handleCardClick s p c) := by
  refine ⟨rfl, ?_, rfl, rfl⟩
  simp [onPlanSelect, handleCardClick, cbTags]

/-! ## C10: renderPlans refuses empty and non-array input -/

/-- C10.  `renderPlans` with a non-array or with an empty array emits the
`No pricing plans provided` warning and changes nothing: the stored plans
and the rendered container are left exactly as they were. -/
theorem renderPlans_guard (s : CompState) :
    (renderPlans s .nonArray).1 = s
    ∧ (renderPlans s .nonArray).2 = [.warnNoPlans]
    ∧ (renderPlans s (.arr [])).1 = s
    ∧ (renderPlans s (.arr [])).2 = [.warnNoPlans] :=
  ⟨rfl, rfl, rfl, rfl⟩

/-! ## The render loop -/

theorem renderLoop_spec (ps : List Plan) :
    ∀ (s : CompState) (i : Nat),
      (renderLoop s ps i).1.container
          = s.container ++ ((withIndexFrom i ps).filter fun ip => validatePlanData ip.2).map
              (fun ip => buildCard ip.2 ip.1)
      ∧ (renderLoop s ps i).1.plans = s.plans
      ∧ (renderLoop s ps i).1.cbSlot = s.cbSlot
      ∧ (renderLoop s ps i).2
          = (ps.filter fun p => !validatePlanData p).map Diag.errorInvalidPlan := by
  induction ps with
  | nil => intro s i; simp [renderLoop, withIndexFrom]
  | cons p rest ih =>
    intro s i
    by_cases hv : validatePlanData p
    · have hrc : renderCard s p i
          = ({ s with container := s.container ++ [buildCard p i] }, []) := by
        simp [renderCard, renderCard1, hv]
      obtain ⟨h1, h2, h3, h4⟩ := ih { s with container := s.container ++ [buildCard p i] } (i + 1)
      simp only [renderLoop, hrc]
      refine ⟨?_, by simpa using h2, by simpa using h3, ?_⟩
      · rw [h1]
        simp [withIndexFrom, hv, List.filter_cons]
      · rw [h4]
        simp [List.filter_cons, hv]
    · have hrc : renderCard s p i = (s, [.errorInvalidPlan p]) := by
        simp [renderCard, renderCard1, hv]
      obtain ⟨h1, h2, h3, h4⟩ := ih s (i + 1)
      simp only [renderLoop, hrc]
      refine ⟨?_, h2, h3, ?_⟩
      · rw [h1]
        simp [withIndexFrom, List.filter_cons, hv]
      · rw [h4]
        simp [List.filter_cons, hv]

/-! ## C4: per-record validation inside a batch -/

/-- C4.  Rendering a non-empty batch renders exactly the records passing
the required-field validation, each at its position and in order — an
invalid record contributes no card at all (no partial markup) and does not
abort the batch — and emits exactly one `Invalid plan data` diagnostic per
invalid record. -/
theorem renderPlans_validation (s : CompState) (ps : List Plan) (hne : ps ≠ []) :
    (renderPlans s (.arr ps)).1.container
        = ((withIndexFrom 0 ps).filter fun ip => validatePlanData ip.2).map
            (fun ip => buildCard ip.2 ip.1)
    ∧ (renderPlans s (.arr ps)).2
        = (ps.filter fun p => !validatePlanData p).map Diag.errorInvalidPlan := by
  match ps, hne with
  | p :: rest, _ =>
    have h := renderLoop_spec (p :: rest) { s with container := [], plans := p :: rest } 0
    exact ⟨by simpa using h.1, h.2.2.2⟩

/-- Witness for C4: a batch holding a record without a `title` between two
valid records renders the two valid cards only, with one diagnostic. -/
theorem renderPlans_validation_witness :
    ([basicPlan, noTitlePlan, entPlan] : List Plan) ≠ []
    ∧ ((renderPlans ⟨[], [], none⟩ (.arr [basicPlan, noTitlePlan, entPlan])).1.container
        = ((withIndexFrom 0 [basicPlan, noTitlePlan, entPlan]).filter
              fun ip => validatePlanData ip.2).map (fun ip => buildCard ip.2 ip.1)
      ∧ (renderPlans ⟨[], [], none⟩ (.arr [basicPlan, noTitlePlan, entPlan])).2
        = ([basicPlan, noTitlePlan, entPlan].filter
              fun p => !validatePlanData p).map Diag.errorInvalidPlan) :=
  ⟨by decide, renderPlans_validation ⟨[], [], none⟩ [basicPlan, noTitlePlan, entPlan] (by decide)⟩

/-! ## C3: setAll then getAll -/

/-- C3 (amended).  For every non-empty sequence of valid records, storing
it with `renderPlans` and reading back with `getPlans` returns exactly the
supplied records, in order. -/
theorem setAll_getAll (s : CompState) (ps : List Plan) (hne : ps ≠ [])
    (hvalid : ∀ p ∈ ps, validatePlanData p = true) :
    getPlans (renderPlans s (.arr ps)).1 = ps := by
  match ps, hne with
  | p :: rest, _ =>
    have h := (renderLoop_spec (p :: rest) { s with container := [], plans := p :: rest } 0).2.1
    simpa [getPlans] using h

/-- Counterexample for C3 as frozen: the empty sequence of (vacuously
valid) records is refused by `renderPlans`, so `getPlans` still returns
the previously stored record rather than the supplied empty sequence. -/
theorem setAll_empty_kept :
    getPlans (renderPlans ⟨[basicPlan], [buildCard basicPlan 0], none⟩ (.arr [])).1
      = [basicPlan]
    ∧ ([basicPlan] : List Plan) ≠ [] := by
  exact ⟨rfl, by decide⟩

/-- Witness for C3 (amended): a two-record valid sequence is returned
verbatim. -/
theorem setAll_getAll_witness :
    ([basicPlan, proPlan] : List Plan) ≠ []
    ∧ getPlans (renderPlans ⟨[entPlan], [buildCard entPlan 0], none⟩
        (.arr [basicPlan, proPlan])).1 = [basicPlan, proPlan] :=
  ⟨by decide, setAll_getAll ⟨[entPlan], [buildCard entPlan 0], none⟩ [basicPlan, proPlan]
    (by decide) (by decide)⟩

/-! ## findIndex machinery -/

theorem findIndexAux_shift (planId : String) (ps : List Plan) :
    ∀ i, findIndexAux planId ps i = (findIndexAux planId ps 0).map fun j => j + i := by
  induction ps with
  | nil => intro i; rfl
  | cons p rest ih =>
    intro i
    by_cases h : p.id = some planId
    · simp [findIndexAux, h]
    · simp only [findIndexAux, if_neg h]
      rw [ih (i + 1), ih 1]
      cases findIndexAux planId rest 0 with
      | none => rfl
      | some j => simp [Option.map]; omega

theorem findIndexById_cons (p : Plan) (rest : List Plan) (planId : String) :
    findIndexById (p :: rest) planId
      = if p.id = some planId then some 0
        else (findIndexById rest planId).map fun j => j + 1 := by
  by_cases h : p.id = some planId
  · simp [findIndexById, findIndexAux, h]
  · simp only [findIndexById, findIndexAux, if_neg h]
    exact findIndexAux_shift planId rest 1

theorem findIndexById_none_iff (ps : List Plan) (planId : String) :
    findIndexById ps planId = none ↔ countById ps planId = 0 := by
  induction ps with
  | nil => simp [findIndexById, findIndexAux, countById]
  | cons p rest ih =>
    rw [findIndexById_cons, countById]
    by_cases h : p.id = some planId
    · simp [h]
    · simp only [if_neg h]
      cases hf : findIndexById rest planId with
      | none => simp [h, ih.mp hf]
      | some j =>
        simp only [Option.map, h]
        constructor
        · intro hx; exact absurd hx (by simp)
        · intro hc
          simp at hc
          rw [ih.mpr hc] at hf
          exact absurd hf (by simp)

theorem findIndexById_lt (ps : List Plan) (planId : String) :
    ∀ i, findIndexById ps planId = some i → i < ps.length := by
  induction ps with
  | nil => intro i h; exact absurd h (by simp [findIndexById, findIndexAux])
  | cons p rest ih =>
    intro i h
    rw [findIndexById_cons] at h
    by_cases hp : p.id = some planId
    · rw [if_pos hp] at h
      obtain rfl : (0 : Nat) = i := by injection h
      simp
    · rw [if_neg hp] at h
      cases hf : findIndexById rest planId with
      | none => rw [hf] at h; exact absurd h (by simp)
      | some j =>
        rw [hf] at h
        obtain rfl : j + 1 = i := by injection h
        have := ih j hf
        simp
        omega

theorem eraseIdx_first_match (ps : List Plan) (planId : String) :
    ∀ i, findIndexById ps planId = some i →
      ps.eraseIdx i = removeFirstById ps planId := by
  induction ps with
  | nil => intro i h; exact absurd h (by simp [findIndexById, findIndexAux])
  | cons p rest ih =>
    intro i h
    rw [findIndexById_cons] at h
    by_cases hp : p.id = some planId
    · rw [if_pos hp] at h
      obtain rfl : (0 : Nat) = i := by injection h
      simp [removeFirstById, hp]
    · rw [if_neg hp] at h
      cases hf : findIndexById rest planId with
      | none => rw [hf] at h; exact absurd h (by simp)
      | some j =>
        rw [hf] at h
        obtain rfl : j + 1 = i := by injection h
        simp [removeFirstById, hp, List.eraseIdx]
        exact ih j hf

theorem countById_removeFirst (ps : List Plan) (planId : String)
    (hc : countById ps planId ≠ 0) :
    countById (removeFirstById ps planId) planId + 1 = countById ps planId := by
  induction ps with
  | nil => exact absurd rfl hc
  | cons p rest ih =>
    by_cases hp : p.id = some planId
    · simp [removeFirstById, hp, countById]
      omega
    · rw [countById, if_neg hp] at hc
      simp only [removeFirstById, if_neg hp, countById, if_neg hp]
      have := ih (by omega)
      omega

theorem length_removeFirst (ps : List Plan) (planId : String)
    (hc : countById ps planId ≠ 0) :
    (removeFirstById ps planId).length + 1 = ps.length := by
  induction ps with
  | nil => exact absurd rfl hc
  | cons p rest ih =>
    by_cases hp : p.id = some planId
    · simp [removeFirstById, hp]
    · rw [countById, if_neg hp] at hc
      simp only [removeFirstById, if_neg hp, List.length_cons]
      have := ih (by omega)
      omega

theorem countCards_removeFirstCard (cards : List Card) (planId : String)
    (hc : countCards cards planId ≠ 0) :
    countCards (removeFirstCard cards planId) planId + 1 = countCards cards planId
    ∧ (removeFirstCard cards planId).length + 1 = cards.length := by
  induction cards with
  | nil => exact absurd rfl hc
  | cons c rest ih =>
    by_cases hp : c.dataPlan = planId
    · simp [removeFirstCard, hp, countCards]
      omega
    · rw [countCards, if_neg hp] at hc
      simp only [removeFirstCard, if_neg hp, countCards, List.length_cons]
      obtain ⟨h1, h2⟩ := ih (by omega)
      omega

theorem removeFirstCard_absent (cards : List Card) (planId : String)
    (hc : countCards cards planId = 0) :
    removeFirstCard cards planId = cards := by
  induction cards with
  | nil => rfl
  | cons c rest ih =>
    by_cases hp : c.dataPlan = planId
    · rw [countCards, if_pos hp] at hc
      omega
    · rw [countCards, if_neg hp] at hc
      rw [removeFirstCard, if_neg hp, ih (by omega)]

/-! ## C5: updatePlan -/

theorem renderCard_plans (s : CompState) (p : Plan) (i : Nat) :
    (renderCard s p i).1.plans = s.plans ∧ (renderCard s p i).1.cbSlot = s.cbSlot := by
  cases hr : renderCard1 p i <;> simp [renderCard, hr]

/-- C5.  `updatePlan` with an id the store holds shallow-merges the patch
onto the first matching record — the merged record keeps every field the
patch does not list — and leaves every record at any other position
untouched; with an unknown id the whole state is returned unchanged
(no-op with a diagnostic, never a throw). -/
theorem updatePlan_spec (s : CompState) (planId : String) (u : PlanPatch) :
    (findIndexById s.plans planId = none →
        updatePlan s planId u = (s, [.warnPlanNotFound planId]))
    ∧ (∀ i, findIndexById s.plans planId = some i →
        ((updatePlan s planId u).1.plans)[i]?
            = some (mergePlan ((s.plans[i]?).getD default) u)
        ∧ ∀ j, j ≠ i → ((updatePlan s planId u).1.plans)[j]? = s.plans[j]?)
    ∧ (∀ p : Plan,
        (u.id = none → (mergePlan p u).id = p.id)
        ∧ (u.title = none → (mergePlan p u).title = p.title)
        ∧ (u.price = none → (mergePlan p u).price = p.price)
        ∧ (u.period = none → (mergePlan p u).period = p.period)
        ∧ (u.badge = none → (mergePlan p u).badge = p.badge)
        ∧ (u.features = none → (mergePlan p u).features = p.features)
        ∧ (u.buttonText = none → (mergePlan p u).buttonText = p.buttonText)
        ∧ (u.highlighted = none → (mergePlan p u).highlighted = p.highlighted)) := by
  refine ⟨?_, ?_, ?_⟩
  · intro h
    simp [updatePlan, h]
  · intro i h
    have hlt := findIndexById_lt s.plans planId i h
    have hup : (updatePlan s planId u).1.plans
        = s.plans.set i (mergePlan ((s.plans[i]?).getD default) u) := by
      simp only [updatePlan, h]
      exact (renderCard_plans _ _ _).1
    refine ⟨?_, ?_⟩
    · rw [hup]
      exact List.getElem?_set_eq_of_lt _ hlt
    · intro j hj
      rw [hup]
      exact List.getElem?_set_ne (Ne.symm hj)
  · intro p
    refine ⟨?_, ?_, ?_, ?_, ?_, ?_, ?_, ?_⟩ <;> intro h <;> simp [mergePlan, h]

/-- Witness for C5: patching only `price` on the `"pro"` record of a
two-record store. -/
theorem updatePlan_spec_witness :
    findIndexById [basicPlan, proPlan] "pro" = some 1
    ∧ ((updatePlan ⟨[basicPlan, proPlan], [buildCard basicPlan 0, buildCard proPlan 1], none⟩
          "pro" { price := some (.num ⟨29, 0⟩) }).1.plans)[1]?
        = some (mergePlan ((([basicPlan, proPlan] : List Plan)[1]?).getD default)
            { price := some (.num ⟨29, 0⟩) }) :=
  ⟨by decide,
   ((updatePlan_spec ⟨[basicPlan, proPlan], [buildCard basicPlan 0, buildCard proPlan 1], none⟩
      "pro" { price := some (.num ⟨29, 0⟩) }).2.1 1 (by decide)).1⟩

/-! ## C6: removePlan -/

/-- The store with two distinct records that share the id `"pro"`. -/
def dupIdState : CompState :=
  ⟨[proPlan, proPlanDup], [buildCard proPlan 0, buildCard proPlanDup 1], none⟩

/-- C6 (amended).  `removePlan` with an unknown id is a no-op with a
diagnostic and never throws.  With a stored id it deletes exactly one
record — the first whose id matches — and detaches exactly one matching
card whenever the container holds at least one; and when the store held
exactly one matching record, a second consecutive call finds nothing and
is a no-op with a diagnostic.  (With duplicate ids the second call removes
the next match instead: see the counterexample.) -/
theorem removePlan_spec (s : CompState) (planId : String) :
    (findIndexById s.plans planId = none →
        removePlan s planId = (s, [.warnPlanNotFound planId]))
    ∧ (∀ i, findIndexById s.plans planId = some i →
        (removePlan s planId).1.plans = removeFirstById s.plans planId
        ∧ ((removePlan s planId).1.plans).length + 1 = s.plans.length
        ∧ countById ((removePlan s planId).1.plans) planId + 1 = countById s.plans planId
        ∧ (countCards s.container planId ≠ 0 →
            countCards ((removePlan s planId).1.container) planId + 1
                = countCards s.container planId
            ∧ ((removePlan s planId).1.container).length + 1 = s.container.length)
        ∧ (countCards s.container planId = 0 →
            (removePlan s planId).1.container = s.container))
    ∧ (countById s.plans planId = 1 →
        removePlan (removePlan s planId).1 planId
          = ((removePlan s planId).1, [.warnPlanNotFound planId])) := by
  have hstate : ∀ i, findIndexById s.plans planId = some i →
      (removePlan s planId).1
        = { s with
            plans := s.plans.eraseIdx i
            container := removeFirstCard s.container planId } := by
    intro i h
    simp [removePlan, h]
  have hnotfound : ∀ t : CompState, findIndexById t.plans planId = none →
      removePlan t planId = (t, [.warnPlanNotFound planId]) := by
    intro t ht
    simp [removePlan, ht]
  refine ⟨?_, ?_, ?_⟩
  · intro h
    exact hnotfound s h
  · intro i h
    have hcount : countById s.plans planId ≠ 0 := by
      intro h0
      rw [(findIndexById_none_iff s.plans planId).mpr h0] at h
      exact absurd h (by simp)
    rw [hstate i h]
    have herase := eraseIdx_first_match s.plans planId i h
    refine ⟨by simpa using herase, ?_, ?_, ?_, ?_⟩
    · simp only
      rw [herase]
      exact length_removeFirst s.plans planId hcount
    · simp only
      rw [herase]
      exact countById_removeFirst s.plans planId hcount
    · intro hcc
      exact countCards_removeFirstCard s.container planId hcc
    · intro hcc
      exact removeFirstCard_absent s.container planId hcc
  · intro h1
    cases hf : findIndexById s.plans planId with
    | none =>
      have := (findIndexById_none_iff s.plans planId).mp hf
      omega
    | some i =>
      have herase := eraseIdx_first_match s.plans planId i hf
      have hcnt0 : countById ((removePlan s planId).1).plans planId = 0 := by
        rw [hstate i hf]
        simp only
        rw [herase]
        have := countById_removeFirst s.plans planId (by omega)
        omega
      have hnone : findIndexById ((removePlan s planId).1).plans planId = none :=
        (findIndexById_none_iff _ _).mpr hcnt0
      exact hnotfound _ hnone

/-- Counterexample for C6 as frozen: with two stored records sharing the
id `"pro"`, the second consecutive `removePlan "pro"` removes the second
record, so it is not a no-op. -/
theorem removePlan_twice_not_noop :
    (removePlan dupIdState "pro").1.plans = [proPlanDup]
    ∧ (removePlan (removePlan dupIdState "pro").1 "pro").1.plans = []
    ∧ (removePlan (removePlan dupIdState "pro").1 "pro").1
        ≠ (removePlan dupIdState "pro").1 :=
  ⟨by decide, by decide, by decide⟩

/-- Witness for C6: on a store holding exactly one `"pro"` record the
second consecutive call is a no-op with the `not found` diagnostic. -/
theorem removePlan_spec_witness :
    countById [proPlan, basicPlan] "pro" = 1
    ∧ removePlan (removePlan ⟨[proPlan, basicPlan],
          [buildCard proPlan 0, buildCard basicPlan 1], none⟩ "pro").1 "pro"
        = ((removePlan ⟨[proPlan, basicPlan],
            [buildCard proPlan 0, buildCard basicPlan 1], none⟩ "pro").1,
           [.warnPlanNotFound "pro"]) :=
  ⟨by decide,
   (removePlan_spec ⟨[proPlan, basicPlan], [buildCard proPlan 0, buildCard basicPlan 1], none⟩
      "pro").2.2 (by decide)⟩

/-! ## C7: getPlans returns a shallow copy -/

/-- A one-record reference state: the heap holds the record object at
reference 0 and the internal plans array (holding `[0]`) at reference 0. -/
def refState0 : RefState := ⟨⟨[basicPlan], [[0]]⟩, 0⟩

/-- Counterexample for C7 as frozen: the snapshot array returned by
`getPlans` holds the same record references as the store, so assigning to
a record reached through the snapshot (here reference 0, the first element
of the returned array) does change the component's stored plans. -/
theorem getPlans_record_mutation :
    storedPlans refState0 = [basicPlan]
    ∧ arrContents (getPlansRef refState0).1.heap (getPlansRef refState0).2 = [0]
    ∧ storedPlans (setObj (getPlansRef refState0).1 0 proPlan) = [proPlan]
    ∧ ([proPlan] : List Plan) ≠ [basicPlan] :=
  ⟨by decide, by decide, by decide, by decide⟩

/-- C7 (amended).  `getPlans` hands out a genuinely fresh array — its
reference differs from the internal one, and however the caller rewrites
that array's contents the component's stored plans are unchanged — but the
array is a shallow copy: it holds exactly the same record references as
the internal array (so record objects are shared; see the
counterexample). -/
theorem getPlans_copy_semantics (s : RefState) (hwf : s.plansArr < s.heap.arrs.length)
    (v : List Nat) :
    (getPlansRef s).2 ≠ s.plansArr
    ∧ arrContents (getPlansRef s).1.heap (getPlansRef s).2 = arrContents s.heap s.plansArr
    ∧ storedPlans (getPlansRef s).1 = storedPlans s
    ∧ storedPlans (setArr (getPlansRef s).1 (getPlansRef s).2 v) = storedPlans s := by
  have h1 : (getPlansRef s).1.heap.arrs = s.heap.arrs ++ [arrContents s.heap s.plansArr] := rfl
  have h2 : (getPlansRef s).1.heap.objs = s.heap.objs := rfl
  have h3 : (getPlansRef s).1.plansArr = s.plansArr := rfl
  have hfresh : (getPlansRef s).2 = s.heap.arrs.length := rfl
  have hne : s.heap.arrs.length ≠ s.plansArr := by omega
  have hcontents : arrContents (getPlansRef s).1.heap s.plansArr
      = arrContents s.heap s.plansArr := by
    unfold arrContents
    rw [h1, List.getElem?_append_left hwf]
  refine ⟨by rw [hfresh]; exact hne, ?_, ?_, ?_⟩
  · unfold arrContents
    rw [h1, hfresh, List.getElem?_concat_length]
    rfl
  · unfold storedPlans
    rw [h3, h2, hcontents]
  · unfold storedPlans setArr
    simp only
    rw [h3, h2]
    have harr : arrContents
        { objs := s.heap.objs
          arrs := (getPlansRef s).1.heap.arrs.set (getPlansRef s).2 v } s.plansArr
        = arrContents s.heap s.plansArr := by
      unfold arrContents
      simp only
      rw [hfresh, List.getElem?_set_ne hne, h1, List.getElem?_append_left hwf]
    rw [harr]

/-- Witness for C7 (amended): on the one-record state, rewriting the
snapshot array (here: emptying it) leaves the stored plans intact. -/
theorem getPlans_copy_semantics_witness :
    refState0.plansArr < refState0.heap.arrs.length
    ∧ storedPlans (setArr (getPlansRef refState0).1 (getPlansRef refState0).2 [])
        = storedPlans refState0 :=
  ⟨by decide, (getPlans_copy_semantics refState0 (by decide) []).2.2.2⟩
